import Mathlib

/-!
A verification development for the Rust key-vault / EVM-transaction-signer
library (`src/juliaos/packages/rust_signer/src/lib.rs`).

The boundary functions `sign_evm_transaction_ffi` and `store_new_key_ffi`
are embedded as pure Lean functions.  External cryptographic collaborators
(Argon2id, AES-256-GCM, base64, serde_json, secp256k1 signing and RLP
encoding) are modelled as an abstract structure of primitives
(`CryptoPrims`) together with the contract laws those libraries guarantee
(`CryptoLaws`); the control flow, validation order, status codes and
buffer handling of the Rust source are translated directly.

Conventions:
* machine bytes are `Fin 256`; byte strings are `List (Fin 256)`;
* C strings crossing the boundary are `CInput` (null pointer, invalid
  UTF-8, or a valid string), matching what `c_str_to_string` can observe;
* the `OsRng` draws made inside a call are passed as explicit arguments;
* the process environment and the key-store directory are a `World` value;
* the caller's output buffer is a `List Nat` of byte cells; the `c_int`
  return value is an `Int` and the final `as c_int` cast is modelled by
  `wrapI32` (two's-complement wrap at 32 bits).
-/

namespace RustSigner

/-- A raw byte. -/
abbrev Byte := Fin 256

/-- Value of one hex digit character (`0-9`, `a-f`, `A-F`), as the
`hex` / `uint` crates classify digits. -/
def hexDigitToNat (c : Char) : Option Nat :=
  let n := c.toNat
  if 48 ≤ n ∧ n ≤ 57 then some (n - 48)
  else if 97 ≤ n ∧ n ≤ 102 then some (n - 87)
  else if 65 ≤ n ∧ n ≤ 70 then some (n - 55)
  else none

/-- Decode a list of hex characters two at a time, as `hex::decode` does:
the empty list yields the empty byte string, an odd-length list or any
non-hex character is an error. -/
def hexDecodePairs : List Char → Option (List Byte)
  | [] => some []
  | [_] => none
  | c₁ :: c₂ :: rest =>
    match hexDigitToNat c₁, hexDigitToNat c₂, hexDecodePairs rest with
    | some h, some l, some bs => some (⟨(h * 16 + l) % 256, by omega⟩ :: bs)
    | _, _, _ => none

/-- `hex::decode` from the `hex` crate. -/
def hex_decode (s : String) : Option (List Byte) := hexDecodePairs s.data

/-- Lowercase hex digit character for `n % 16`-style values below 16. -/
def hexDigitChar (n : Nat) : Char := Char.ofNat (if n < 10 then 48 + n else 87 + n)

/-- Two lowercase hex characters per byte, as `hex::encode` produces. -/
def hexEncodeChars : List Byte → List Char
  | [] => []
  | b :: bs => hexDigitChar (b.val / 16) :: hexDigitChar (b.val % 16) :: hexEncodeChars bs

/-- `hex::encode` from the `hex` crate (lowercase). -/
def hex_encode (bs : List Byte) : String := String.mk (hexEncodeChars bs)

/-- `s.strip_prefix("0x").unwrap_or(&s)`: drop one leading `0x` if
present (character codes 48 then 120). -/
def strip0x (s : String) : String :=
  match s.data with
  | c₁ :: c₂ :: rest => if c₁.toNat = 48 ∧ c₂.toNat = 120 then String.mk rest else s
  | _ => s

/-- `U256::from_str_radix(s, 16)` from the `uint` crate: every character
must be a hex digit, and the value must fit in 256 bits; a digit-free
string is rejected. -/
def u256_from_str_radix_16 (s : String) : Option Nat :=
  if s.data.isEmpty then none
  else
    (s.data.foldl
      (fun acc c =>
        match acc, hexDigitToNat c with
        | some v, some d => some (v * 16 + d)
        | _, _ => none)
      (some 0)).bind
      (fun v => if v < 2 ^ 256 then some v else none)

/-- `Address::from_str` (ethers `H160`): the (already `0x`-stripped) string
must hex-decode to exactly 20 bytes. -/
def address_from_str (s : String) : Option (List Byte) :=
  (hex_decode s).bind (fun bs => if bs.length = 20 then some bs else none)

/-- The persisted record: base64-encoded salt, nonce and ciphertext
(struct `EncryptedKeyFile` in the source). -/
structure EncryptedKeyFile where
  salt : String
  nonce : String
  ciphertext : String
deriving DecidableEq

/-- The assembled unsigned transaction (the fields the source sets on
`TransactionRequest`). -/
structure Tx where
  toAddr : List Byte
  value : Nat
  data : List Byte
  nonce : Nat
  gasPrice : Nat
  gas : Nat
deriving DecidableEq

/-- The external cryptographic collaborators, as opaque-to-this-layer
functions.  `argon2Hash m t p outLen password salt` is
`Argon2::hash_password_into` with the given cost parameters (`none` is a
derivation error, e.g. a too-short salt).  `encrypt`/`decrypt` are
AES-256-GCM seal/open with key and nonce (GCM encryption of a short
plaintext never fails, so `encrypt` is total; `decrypt` fails on tag
mismatch).  `b64encode`/`b64decode` are the base64 engine,
`jsonSerialize`/`jsonDeserialize` the serde_json codec for
`EncryptedKeyFile` (`to_string_pretty` on this struct of strings cannot
fail).  `validScalar` is `SigningKey::from_bytes` succeeding, `signTx sk
chainId tx` is `wallet.sign_transaction_sync`, and `rlpSigned tx sig` is
`tx_request.rlp_signed(&signature)`. -/
structure CryptoPrims where
  argon2Hash : Nat → Nat → Nat → Nat → String → List Byte → Option (List Byte)
  encrypt : List Byte → List Byte → List Byte → List Byte
  decrypt : List Byte → List Byte → List Byte → Option (List Byte)
  b64encode : List Byte → String
  b64decode : String → Option (List Byte)
  jsonSerialize : EncryptedKeyFile → String
  jsonDeserialize : String → Option EncryptedKeyFile
  validScalar : List Byte → Bool
  signTx : List Byte → Nat → Tx → Option (List Byte)
  rlpSigned : Tx → List Byte → List Byte

/-- The contract laws of the external libraries that the source relies
on: authenticated decryption inverts encryption under the same key and
nonce, base64 and the JSON codec round-trip, and Argon2id succeeds on
the 16-byte salts this program generates. -/
structure CryptoLaws (C : CryptoPrims) : Prop where
  decrypt_encrypt : ∀ k n pt, C.decrypt k n (C.encrypt k n pt) = some pt
  b64_roundtrip : ∀ b, C.b64decode (C.b64encode b) = some b
  json_roundtrip : ∀ r, C.jsonDeserialize (C.jsonSerialize r) = some r
  argon2_salt16 : ∀ pw salt, salt.length = 16 →
    (C.argon2Hash 65536 4 2 32 pw salt).isSome

/-- The ambient state a call can observe: the
`JULIAOS_KEYSTORE_PASSWORD` environment variable, whether
`get_key_storage_path` succeeds, whether `fs::write` succeeds, and the
key-store directory contents (file name to file content). -/
structure World where
  envPassword : Option String
  storageOk : Bool
  writeOk : Bool
  store : List (String × String)

/-- The `OsRng` draws made by one `store_new_key_ffi` call: the fresh
secret (`SigningKey::random`, 32 bytes), the Argon2 salt (16 bytes) and
the AES-GCM nonce (12 bytes). -/
structure Draws where
  secret : List Byte
  salt : List Byte
  nonce : List Byte

/-- What a `*const c_char` argument can be from the callee's point of
view: a null pointer, a non-UTF-8 byte sequence, or a valid string. -/
inductive CInput
  | null
  | invalidUtf8
  | str (s : String)
deriving DecidableEq

/-- `c_str_to_string` (lib.rs lines 143-153): error on null pointer or
invalid UTF-8, otherwise the Rust string. -/
def c_str_to_string : CInput → Except String String
  | CInput.null => Except.error ("Null pointer passed for C string")
  | CInput.invalidUtf8 => Except.error ("Invalid UTF-8 sequence in C string")
  | CInput.str s => Except.ok s

/-- Result of `load_and_decrypt_pk`: the 32-byte secret, a recoverable
error message, or a panic (the `Nonce::from_slice` call panics when the
decoded nonce is not 12 bytes). -/
inductive LoadResult
  | ok (pk : List Byte)
  | failed (msg : String)
  | panicked
deriving DecidableEq

/-- Outcome of the body of a `panic::catch_unwind` closure. -/
inductive FfiOut (α : Type)
  | ret (a : α)
  | panicked
deriving DecidableEq

/-- `derive_encryption_key` (lib.rs lines 62-73): Argon2id, version 0x13,
with the fixed constants 64 MiB (65536 KiB) memory, 4 iterations,
parallelism 2, 32-byte output.  (`Params::new(..).unwrap()` cannot panic:
these constants are valid parameters.) -/
def derive_encryption_key (C : CryptoPrims) (password : String) (salt_bytes : List Byte) :
    Option (List Byte) :=
  C.argon2Hash 65536 4 2 32 password salt_bytes

/-- `encrypt_pk_and_prepare_file_data` (lib.rs lines 76-101), with the
two `OsRng` draws (salt, nonce) passed explicitly.  AES-GCM encryption of
a 32-byte plaintext cannot fail, so the only failure is key derivation. -/
def encrypt_pk_and_prepare_file_data (C : CryptoPrims) (rngSalt rngNonce : List Byte)
    (pk_bytes : List Byte) (master_password : String) : Option EncryptedKeyFile :=
  match derive_encryption_key C master_password rngSalt with
  | none => none
  | some key =>
    some { salt := C.b64encode rngSalt
           nonce := C.b64encode rngNonce
           ciphertext := C.b64encode (C.encrypt key rngNonce pk_bytes) }

/-- `load_and_decrypt_pk` (lib.rs lines 105-140).  The existence check
plus `fs::read_to_string` is the `store` lookup; `Nonce::from_slice` on a
decoded nonce that is not 12 bytes panics (caught at the FFI boundary);
the decrypted plaintext must be exactly 32 bytes. -/
def load_and_decrypt_pk (C : CryptoPrims) (w : World)
    (key_identifier master_password : String) : LoadResult :=
  if ¬w.storageOk then LoadResult.failed ("Could not determine application data directory")
  else
    match w.store.lookup (key_identifier ++ (".json")) with
    | none => LoadResult.failed ("Key file not found for identifier")
    | some file_content =>
      match C.jsonDeserialize file_content with
      | none => LoadResult.failed ("Failed to parse key file JSON")
      | some encrypted_data =>
        match C.b64decode encrypted_data.salt with
        | none => LoadResult.failed ("Failed to decode salt")
        | some salt_bytes =>
          match C.b64decode encrypted_data.nonce with
          | none => LoadResult.failed ("Failed to decode nonce")
          | some nonce_bytes =>
            match C.b64decode encrypted_data.ciphertext with
            | none => LoadResult.failed ("Failed to decode ciphertext")
            | some ciphertext_bytes =>
              match derive_encryption_key C master_password salt_bytes with
              | none => LoadResult.failed ("Argon2 key derivation failed")
              | some key =>
                if nonce_bytes.length ≠ 12 then LoadResult.panicked
                else
                  match C.decrypt key nonce_bytes ciphertext_bytes with
                  | none => LoadResult.failed ("Failed to decrypt private key")
                  | some decrypted_pk_bytes =>
                    if decrypted_pk_bytes.length ≠ 32 then
                      LoadResult.failed ("Decrypted private key is not 32 bytes long")
                    else LoadResult.ok decrypted_pk_bytes

/-- The arguments of `sign_evm_transaction_ffi` (lib.rs lines 157-168).
`nonce`, `gasLimit` and `chainId` are `c_ulonglong` machine integers,
the other transaction fields are C strings; `capacity` is the
`c_uint` output-buffer capacity. -/
structure SignArgs where
  keyId : CInput
  toField : CInput
  valueHex : CInput
  dataHex : CInput
  nonce : Nat
  gasPriceHex : CInput
  gasLimit : Nat
  chainId : Nat
  capacity : Nat

/-- Field conversion and assembly of the `TransactionRequest`
(lib.rs lines 198-244): `to`, `value`, `data` and `gas_price` are
converted from C strings and parsed (any conversion or parse failure is
status -4); `nonce` and `gas_limit` are taken directly from the
`c_ulonglong` arguments via `U256::from`. -/
def assembleTx (toField valueHex dataHex gasPriceHex : CInput)
    (nonce gasLimit : Nat) : Option Tx :=
  match c_str_to_string toField with
  | Except.error _ => none
  | Except.ok to_str =>
    match address_from_str (strip0x to_str) with
    | none => none
    | some to_addr =>
      match c_str_to_string valueHex with
      | Except.error _ => none
      | Except.ok value_str =>
        match u256_from_str_radix_16 (strip0x value_str) with
        | none => none
        | some value_u256 =>
          match c_str_to_string dataHex with
          | Except.error _ => none
          | Except.ok data_str =>
            match hex_decode (strip0x data_str) with
            | none => none
            | some data_bytes =>
              match c_str_to_string gasPriceHex with
              | Except.error _ => none
              | Except.ok gas_price_str =>
                match u256_from_str_radix_16 (strip0x gas_price_str) with
                | none => none
                | some gas_price_u256 =>
                  some { toAddr := to_addr
                         value := value_u256
                         data := data_bytes
                         nonce := nonce
                         gasPrice := gas_price_u256
                         gas := gasLimit }

/-- Everything `sign_evm_transaction_ffi` does before the capacity check:
an error status, a panic, or the `0x`-prefixed hex encoding of the
RLP-signed transaction. -/
inductive SignOutcome
  | err (code : Int)
  | panicked
  | out (hex : String)
deriving DecidableEq

/-- The staged pipeline of `sign_evm_transaction_ffi` (lib.rs lines
170-254): key-identifier conversion (-4), master password from the
environment (-1), load and decrypt (-1, or panic), signing-key validity
(-1), field conversion and assembly (-4), signing (-2), then the signed
hex string `"0x" ++ hex::encode(rlp)`. -/
def signStages (C : CryptoPrims) (w : World) (a : SignArgs) : SignOutcome :=
  match c_str_to_string a.keyId with
  | Except.error _ => SignOutcome.err (-4)
  | Except.ok key_id =>
    match w.envPassword with
    | none => SignOutcome.err (-1)
    | some master_password =>
      match load_and_decrypt_pk C w key_id master_password with
      | LoadResult.panicked => SignOutcome.panicked
      | LoadResult.failed _ => SignOutcome.err (-1)
      | LoadResult.ok pk_bytes =>
        if ¬C.validScalar pk_bytes then SignOutcome.err (-1)
        else
          match assembleTx a.toField a.valueHex a.dataHex a.gasPriceHex a.nonce a.gasLimit with
          | none => SignOutcome.err (-4)
          | some tx =>
            match C.signTx pk_bytes a.chainId tx with
            | none => SignOutcome.err (-2)
            | some signature =>
              SignOutcome.out (("0x") ++ hex_encode (C.rlpSigned tx signature))

/-- Two's-complement wrap of a `usize`-sized length into a `c_int`
(the `signed_tx_hex.len() as c_int` cast). -/
def wrapI32 (n : Nat) : Int :=
  if n % 2 ^ 32 < 2 ^ 31 then ((n % 2 ^ 32 : Nat) : Int)
  else ((n % 2 ^ 32 : Nat) : Int) - 2 ^ 32

/-- The bytes of an ASCII string as buffer cells. -/
def stringBytes (s : String) : List Nat := s.data.map Char.toNat

/-- `ptr::copy_nonoverlapping` of the string bytes followed by the NUL
terminator: cells beyond position `s.length` keep their old contents. -/
def writeCOut (buf : List Nat) (s : String) : List Nat :=
  stringBytes s ++ 0 :: buf.drop (s.length + 1)

/-- Whether a string contains an interior NUL (the only way
`CString::new` can fail). -/
def hasNul (s : String) : Bool := s.data.any (fun c => c.toNat == 0)

/-- The `catch_unwind` closure body of `sign_evm_transaction_ffi`
(lib.rs lines 169-271): run the pipeline, then the capacity check (-3,
buffer untouched), the `CString::new` check (-4, buffer untouched), and
finally the buffer write and the `len() as c_int` return. -/
def signBody (C : CryptoPrims) (w : World) (a : SignArgs) (buf : List Nat) :
    FfiOut (Int × List Nat) :=
  match signStages C w a with
  | SignOutcome.panicked => FfiOut.panicked
  | SignOutcome.err code => FfiOut.ret (code, buf)
  | SignOutcome.out signed_tx_hex =>
    if signed_tx_hex.length + 1 > a.capacity then FfiOut.ret (-3, buf)
    else if hasNul signed_tx_hex then FfiOut.ret (-4, buf)
    else FfiOut.ret (wrapI32 signed_tx_hex.length, writeCOut buf signed_tx_hex)

/-- The signed hex string the pipeline produces, when it produces one
(independent of the output capacity, which the source only consults
after the string is built). -/
def signPipelineHex (C : CryptoPrims) (w : World) (a : SignArgs) : Option String :=
  match signStages C w a with
  | SignOutcome.out hex => some hex
  | _ => none

/-- The `match catch_unwind` at the end of `sign_evm_transaction_ffi`
(lib.rs lines 273-276): a panic becomes -5 and the caller's buffer is
left as it was. -/
def ffiCatchSign (o : FfiOut (Int × List Nat)) (buf : List Nat) : Int × List Nat :=
  match o with
  | FfiOut.ret r => r
  | FfiOut.panicked => (-5, buf)

/-- `sign_evm_transaction_ffi` (lib.rs lines 157-277): returns the
status and the caller's output buffer after the call. -/
def sign_evm_transaction_ffi (C : CryptoPrims) (w : World) (a : SignArgs)
    (buf : List Nat) : Int × List Nat :=
  ffiCatchSign (signBody C w a buf) buf

/-- The `catch_unwind` closure body of `store_new_key_ffi` (lib.rs lines
284-333): identifier conversion (-11), password conversion (-12), fresh
key generation (the `Draws`), encryption (-13), JSON serialization (-14,
unreachable for this struct), storage path (-15), the existence check
(-16), and the write (0, or -17). -/
def storeBody (C : CryptoPrims) (w : World) (d : Draws) (idArg pwArg : CInput) :
    FfiOut (Int × World) :=
  match c_str_to_string idArg with
  | Except.error _ => FfiOut.ret (-11, w)
  | Except.ok key_id =>
    match c_str_to_string pwArg with
    | Except.error _ => FfiOut.ret (-12, w)
    | Except.ok master_password =>
      match encrypt_pk_and_prepare_file_data C d.salt d.nonce d.secret master_password with
      | none => FfiOut.ret (-13, w)
      | some encrypted_file_data =>
        let json_data := C.jsonSerialize encrypted_file_data
        if ¬w.storageOk then FfiOut.ret (-15, w)
        else
          let fname := key_id ++ (".json")
          if (w.store.lookup fname).isSome then FfiOut.ret (-16, w)
          else if w.writeOk then FfiOut.ret (0, { w with store := (fname, json_data) :: w.store })
          else FfiOut.ret (-17, w)

/-- The `match catch_unwind` at the end of `store_new_key_ffi`
(lib.rs lines 334-337). -/
def ffiCatchStore (o : FfiOut (Int × World)) (w : World) : Int × World :=
  match o with
  | FfiOut.ret r => r
  | FfiOut.panicked => (-5, w)

/-- `store_new_key_ffi` (lib.rs lines 280-338): returns the status and
the world (key store) after the call. -/
def store_new_key_ffi (C : CryptoPrims) (w : World) (d : Draws) (idArg pwArg : CInput) :
    Int × World :=
  ffiCatchStore (storeBody C w d idArg pwArg) w

/-- Transaction assembly as §3 of the specification describes it, for
comparison with `assembleTx`: "All numeric/byte fields arrive as
hex-encoded text and must be decoded and range-checked" — including
`nonce`, `gasLimit` and `chainId`, which would then be hex text parsed
as integers.  Returns the assembled transaction and the chain id. -/
def assembleTxSpecView (toS valueS dataS nonceS gasPriceS gasLimitS chainIdS : String) :
    Option (Tx × Nat) :=
  match address_from_str (strip0x toS) with
  | none => none
  | some to_addr =>
    match u256_from_str_radix_16 (strip0x valueS) with
    | none => none
    | some v =>
      match hex_decode (strip0x dataS) with
      | none => none
      | some d =>
        match u256_from_str_radix_16 (strip0x nonceS) with
        | none => none
        | some n =>
          match u256_from_str_radix_16 (strip0x gasPriceS) with
          | none => none
          | some gp =>
            match u256_from_str_radix_16 (strip0x gasLimitS) with
            | none => none
            | some gl =>
              match u256_from_str_radix_16 (strip0x chainIdS) with
              | none => none
              | some cid =>
                some ({ toAddr := to_addr, value := v, data := d,
                        nonce := n, gasPrice := gp, gas := gl }, cid)

/-! ### An executable instance of the primitives, for concrete witnesses

The laws of `CryptoLaws` are all that the proofs about the boundary use;
this toy instance satisfies them with small executable functions so that
every witness below evaluates on concrete inputs. -/

/-- Unary-length-prefixed field encoding for the witness codec:
`s.length` copies of the character `a` (code 97), a separator (code 58),
then the field text. -/
def encFieldChars (s : String) : List Char :=
  List.replicate s.length (Char.ofNat 97) ++ Char.ofNat 58 :: s.data

/-- `encFieldChars` as a string. -/
def encField (s : String) : String := String.mk (encFieldChars s)

/-- The unary length prefix a parse of `l` reads. -/
def unaryLen (l : List Char) : Nat := (l.takeWhile (fun c => c.toNat == 97)).length

/-- Parse one unary-length-prefixed field, returning it and the rest. -/
def parseFieldL (l : List Char) : Option (String × List Char) :=
  match l.drop (unaryLen l) with
  | c :: rest =>
    if c.toNat = 58 ∧ unaryLen l ≤ rest.length then
      some (String.mk (rest.take (unaryLen l)), rest.drop (unaryLen l))
    else none
  | [] => none

/-- Parse a three-field record written with `encField`. -/
def parse3 (s : String) : Option EncryptedKeyFile :=
  match parseFieldL s.data with
  | none => none
  | some (f₁, r₁) =>
    match parseFieldL r₁ with
    | none => none
    | some (f₂, r₂) =>
      match parseFieldL r₂ with
      | none => none
      | some (f₃, r₃) =>
        if r₃ = [] then some { salt := f₁, nonce := f₂, ciphertext := f₃ } else none

/-- The toy primitives: a constant derived key (defined for salts of at
least 8 bytes, like Argon2id), append-a-16-byte-tag encryption, hex in
place of base64, the unary-prefix codec in place of serde_json, and a
fixed 3-byte signature. -/
def toyPrims : CryptoPrims where
  argon2Hash := fun _ _ _ _ _ salt =>
    if 8 ≤ salt.length then some (List.replicate 32 (0 : Byte)) else none
  encrypt := fun _ _ pt => pt ++ List.replicate 16 (0 : Byte)
  decrypt := fun _ _ ct => if 16 ≤ ct.length then some (ct.take (ct.length - 16)) else none
  b64encode := hex_encode
  b64decode := hex_decode
  jsonSerialize := fun r => encField r.salt ++ encField r.nonce ++ encField r.ciphertext
  jsonDeserialize := parse3
  validScalar := fun _ => true
  signTx := fun _ _ _ => some [1, 2, 3]
  rlpSigned := fun _ signature => signature

/-! ### Concrete fixtures for the witnesses -/

/-- A 16-byte salt. -/
def salt16 : List Byte := List.replicate 16 0

/-- A 12-byte nonce. -/
def nonce12 : List Byte := List.replicate 12 0

/-- A 32-byte secret. -/
def secret32 : List Byte := List.replicate 32 0

/-- A 48-byte ciphertext (32-byte plaintext plus 16-byte tag). -/
def ct48 : List Byte := List.replicate 48 0

/-- A well-formed stored record for `secret32` under `toyPrims`. -/
def goodRecord : EncryptedKeyFile :=
  { salt := hex_encode salt16, nonce := hex_encode nonce12, ciphertext := hex_encode ct48 }

/-- One set of `OsRng` draws. -/
def dDraw : Draws := { secret := secret32, salt := salt16, nonce := nonce12 }

/-- A world holding `goodRecord` under identifier `k`, password set. -/
def wOk : World :=
  { envPassword := some ("pw"), storageOk := true, writeOk := true,
    store := [(("k.json"), toyPrims.jsonSerialize goodRecord)] }

/-- A fully valid signing call against `wOk`. -/
def aOk : SignArgs :=
  { keyId := CInput.str ("k"),
    toField := CInput.str ("0x0000000000000000000000000000000000000000"),
    valueHex := CInput.str ("0"), dataHex := CInput.str (""),
    nonce := 0, gasPriceHex := CInput.str ("1"), gasLimit := 21000, chainId := 1,
    capacity := 100 }

/-- A world with no master password configured and an empty store. -/
def wEmpty : World := { envPassword := none, storageOk := true, writeOk := true, store := [] }

/-- A record whose nonce field decodes to 5 bytes (not 12): loading it
panics at `Nonce::from_slice`. -/
def badNonceRecord : EncryptedKeyFile :=
  { salt := hex_encode salt16, nonce := hex_encode (List.replicate 5 0),
    ciphertext := hex_encode ct48 }

/-- A world holding `badNonceRecord` under identifier `k`. -/
def wBadNonce : World :=
  { envPassword := some ("pw"), storageOk := true, writeOk := true,
    store := [(("k.json"), toyPrims.jsonSerialize badNonceRecord)] }

/-- A record whose ciphertext decrypts to 31 bytes (47-byte ciphertext). -/
def shortRecord : EncryptedKeyFile :=
  { salt := hex_encode salt16, nonce := hex_encode nonce12,
    ciphertext := hex_encode (List.replicate 47 0) }

/-- A world holding `shortRecord` under identifier `k`. -/
def wShortPk : World :=
  { envPassword := some ("pw"), storageOk := true, writeOk := true,
    store := [(("k.json"), toyPrims.jsonSerialize shortRecord)] }

/-! ### Helper lemmas -/

/-- Rebuilding a string from its characters is the identity. -/
theorem string_mk_data (s : String) : String.mk s.data = s := by
  cases s
  rfl

/-- The characters of an appended string. -/
theorem string_data_append (a b : String) : (a ++ b).data = a.data ++ b.data := by
  cases a
  cases b
  rfl

/-- Reading back a lowercase hex digit recovers its value. -/
theorem hexDigit_roundtrip : ∀ n < 16, hexDigitToNat (hexDigitChar n) = some n := by decide

/-- Pairwise hex decoding inverts hex encoding. -/
theorem hexDecodePairs_encodeChars (bs : List Byte) :
    hexDecodePairs (hexEncodeChars bs) = some bs := by
  induction bs with
  | nil => rfl
  | cons b bs ih =>
    have h1 : hexDigitToNat (hexDigitChar (b.val / 16)) = some (b.val / 16) :=
      hexDigit_roundtrip _ (by omega)
    have h2 : hexDigitToNat (hexDigitChar (b.val % 16)) = some (b.val % 16) :=
      hexDigit_roundtrip _ (by omega)
    have h3 : (b.val / 16 * 16 + b.val % 16) % 256 = b.val := by
      have := b.isLt
      omega
    simp [hexEncodeChars, hexDecodePairs, h1, h2, ih, Fin.ext_iff, h3]

/-- `hex::decode` inverts `hex::encode`. -/
theorem hex_roundtrip (bs : List Byte) : hex_decode (hex_encode bs) = some bs := by
  simpa [hex_decode, hex_encode] using hexDecodePairs_encodeChars bs

/-- The unary prefix of a field encoding is exactly what `takeWhile`
recovers: the separator stops the scan. -/
theorem takeWhile_unary (n : Nat) (t : List Char) :
    List.takeWhile (fun c => c.toNat == 97)
      (List.replicate n (Char.ofNat 97) ++ Char.ofNat 58 :: t)
      = List.replicate n (Char.ofNat 97) := by
  induction n with
  | zero =>
    have h : ((Char.ofNat 58).toNat == 97) = false := by decide
    simp [List.takeWhile_cons, h]
  | succ n ih =>
    have h : ((Char.ofNat 97).toNat == 97) = true := by decide
    simp [List.replicate_succ, List.takeWhile_cons, h, ih]

/-- Appending does not change the unary prefix read from an encoded
field. -/
theorem unaryLen_enc (s : String) (rest : List Char) :
    unaryLen (encFieldChars s ++ rest) = s.length := by
  have hassoc :
      encFieldChars s ++ rest
        = List.replicate s.length (Char.ofNat 97) ++ Char.ofNat 58 :: (s.data ++ rest) := by
    simp [encFieldChars]
  rw [unaryLen, hassoc, takeWhile_unary]
  simp

/-- Parsing one encoded field recovers the field and the remainder. -/
theorem parseFieldL_enc (s : String) (rest : List Char) :
    parseFieldL (encFieldChars s ++ rest) = some (s, rest) := by
  have hlen : s.length = s.data.length := rfl
  have hassoc :
      encFieldChars s ++ rest
        = List.replicate s.length (Char.ofNat 97) ++ Char.ofNat 58 :: (s.data ++ rest) := by
    simp [encFieldChars]
  have hdrop :
      (encFieldChars s ++ rest).drop s.length = Char.ofNat 58 :: (s.data ++ rest) := by
    conv =>
      lhs
      rw [hassoc]
    have h := List.drop_left (List.replicate s.length (Char.ofNat 97))
      (Char.ofNat 58 :: (s.data ++ rest))
    rw [List.length_replicate] at h
    exact h
  have hc : (Char.ofNat 58).toNat = 58 := by decide
  have hle : s.length ≤ (s.data ++ rest).length := by
    rw [List.length_append, hlen]
    omega
  have htakeL : (s.data ++ rest).take s.data.length = s.data := List.take_left _ _
  have hdropL : (s.data ++ rest).drop s.data.length = rest := List.drop_left _ _
  rw [parseFieldL, unaryLen_enc, hdrop]
  show (if (Char.ofNat 58).toNat = 58 ∧ s.length ≤ (s.data ++ rest).length then
      some (String.mk ((s.data ++ rest).take s.length), (s.data ++ rest).drop s.length)
    else none) = some (s, rest)
  rw [if_pos ⟨hc, hle⟩, hlen, htakeL, hdropL, string_mk_data]

/-- The witness codec round-trips. -/
theorem parse3_serialize (r : EncryptedKeyFile) :
    parse3 (encField r.salt ++ encField r.nonce ++ encField r.ciphertext) = some r := by
  have h3 : parseFieldL (encFieldChars r.ciphertext) = some (r.ciphertext, []) := by
    simpa using parseFieldL_enc r.ciphertext []
  simp [parse3, encField, string_data_append, List.append_assoc, parseFieldL_enc, h3]

/-- The toy primitives satisfy the library contract laws. -/
theorem toyCryptoLaws : CryptoLaws toyPrims := by
  constructor
  · intro k n pt
    have hlen : (pt ++ List.replicate 16 (0 : Byte)).length = pt.length + 16 := by simp
    simp only [toyPrims, hlen]
    rw [if_pos (by omega)]
    simp [List.take_left]
  · intro b
    exact hex_roundtrip b
  · intro r
    exact parse3_serialize r
  · intro pw salt h
    simp [toyPrims, derive_encryption_key]
    omega

/-- Case characterization of `sign_evm_transaction_ffi` over the staged
pipeline outcome. -/
theorem sign_ffi_eq (C : CryptoPrims) (w : World) (a : SignArgs) (buf : List Nat) :
    sign_evm_transaction_ffi C w a buf =
      match signStages C w a with
      | SignOutcome.err code => (code, buf)
      | SignOutcome.panicked => (-5, buf)
      | SignOutcome.out hex =>
        if hex.length + 1 > a.capacity then (-3, buf)
        else if hasNul hex then (-4, buf)
        else (wrapI32 hex.length, writeCOut buf hex) := by
  unfold sign_evm_transaction_ffi ffiCatchSign signBody
  cases signStages C w a with
  | err code => rfl
  | panicked => rfl
  | out hex =>
    by_cases hcap : hex.length + 1 > a.capacity
    · simp [hcap]
    · by_cases hnul : hasNul hex
      · simp [hcap, hnul]
      · simp [hcap, hnul]

/-- Every error code the staged pipeline can emit is negative. -/
theorem signStages_err_neg (C : CryptoPrims) (w : World) (a : SignArgs) (code : Int)
    (h : signStages C w a = SignOutcome.err code) : code < 0 := by
  unfold signStages at h
  repeat' split at h
  all_goals simp_all
  all_goals omega

/-- The staged pipeline only emits hex strings with a `0x` prefix. -/
theorem signStages_out_shape (C : CryptoPrims) (w : World) (a : SignArgs) (hex : String)
    (h : signStages C w a = SignOutcome.out hex) : ∃ b, hex = ("0x") ++ b := by
  unfold signStages at h
  repeat' split at h
  all_goals simp_all
  exact ⟨_, h.symm⟩

/-- Claim C1: when the required output (the signed-transaction hex
string plus one terminator byte) exceeds the declared capacity, the call
returns -3 and no byte of the caller's buffer is written; and on every
path that does not perform the full successful write, the output buffer
is left entirely unmodified. -/
theorem c1_buffer_safety :
    (∀ (C : CryptoPrims) (w : World) (a : SignArgs) (buf : List Nat) (hex : String),
      signPipelineHex C w a = some hex →
      hex.length + 1 > a.capacity →
      sign_evm_transaction_ffi C w a buf = (-3, buf)) ∧
    (∀ (C : CryptoPrims) (w : World) (a : SignArgs) (buf : List Nat),
      (sign_evm_transaction_ffi C w a buf).2 = buf ∨
        ∃ hex, signPipelineHex C w a = some hex ∧ hex.length + 1 ≤ a.capacity ∧
          sign_evm_transaction_ffi C w a buf
            = (wrapI32 hex.length, writeCOut buf hex)) := by
  constructor
  · intro C w a buf hex hpipe hcap
    rw [sign_ffi_eq]
    unfold signPipelineHex at hpipe
    cases hst : signStages C w a with
    | err code => rw [hst] at hpipe; simp at hpipe
    | panicked => rw [hst] at hpipe; simp at hpipe
    | out h =>
      rw [hst] at hpipe
      simp at hpipe
      subst hpipe
      simp [hcap]
  · intro C w a buf
    rw [sign_ffi_eq]
    cases hst : signStages C w a with
    | err code => left; rfl
    | panicked => left; rfl
    | out hex =>
      by_cases hcap : hex.length + 1 > a.capacity
      · left; simp [hcap]
      · by_cases hnul : hasNul hex
        · left; simp [hcap, hnul]
        · right
          exact ⟨hex, by simp [signPipelineHex, hst], by omega, by simp [hcap, hnul]⟩

set_option maxRecDepth 1000000 in
/-- Witness for C1: the concrete happy-path signing call against a
5-byte capacity returns -3 with the buffer untouched. -/
theorem c1_buffer_safety_witness :
    sign_evm_transaction_ffi toyPrims wOk { aOk with capacity := 5 } [] = (-3, []) :=
  c1_buffer_safety.1 toyPrims wOk { aOk with capacity := 5 } [] (("0x010203"))
    (by decide) (by decide)

/-- Claim C2: when a record already exists for an identifier,
`store_new_key_ffi` returns -16 and leaves the persisted state (in
particular the existing record) untouched; two successive calls with the
same identifier return 0 and then -16, the second leaving the state
written by the first byte-identical. -/
theorem c2_store_idempotent_rejection :
    (∀ (C : CryptoPrims), CryptoLaws C →
      ∀ (w : World) (d : Draws) (idf pw content : String),
        d.salt.length = 16 → w.storageOk = true →
        w.store.lookup (idf ++ (".json")) = some content →
        store_new_key_ffi C w d (CInput.str idf) (CInput.str pw) = (-16, w)) ∧
    (∀ (C : CryptoPrims), CryptoLaws C →
      ∀ (w : World) (d₁ d₂ : Draws) (idf pw : String),
        d₁.salt.length = 16 → d₂.salt.length = 16 →
        w.storageOk = true → w.writeOk = true →
        w.store.lookup (idf ++ (".json")) = none →
        ∃ w₁, store_new_key_ffi C w d₁ (CInput.str idf) (CInput.str pw) = (0, w₁) ∧
          store_new_key_ffi C w₁ d₂ (CInput.str idf) (CInput.str pw) = (-16, w₁)) := by
  constructor
  · intro C hC w d idf pw content hsalt hstore hlook
    have hder := hC.argon2_salt16 pw d.salt hsalt
    cases hkey : C.argon2Hash 65536 4 2 32 pw d.salt with
    | none => rw [hkey] at hder; simp at hder
    | some key =>
      simp only [store_new_key_ffi, ffiCatchStore, storeBody, c_str_to_string,
        encrypt_pk_and_prepare_file_data, derive_encryption_key, hkey, hstore, hlook]
      simp
  · intro C hC w d₁ d₂ idf pw hsalt₁ hsalt₂ hstore hwrite hlook
    have hder₁ := hC.argon2_salt16 pw d₁.salt hsalt₁
    have hder₂ := hC.argon2_salt16 pw d₂.salt hsalt₂
    cases hkey₁ : C.argon2Hash 65536 4 2 32 pw d₁.salt with
    | none => rw [hkey₁] at hder₁; simp at hder₁
    | some key₁ =>
      cases hkey₂ : C.argon2Hash 65536 4 2 32 pw d₂.salt with
      | none => rw [hkey₂] at hder₂; simp at hder₂
      | some key₂ =>
        refine ⟨{ w with store := (idf ++ (".json"),
          C.jsonSerialize
            { salt := C.b64encode d₁.salt, nonce := C.b64encode d₁.nonce,
              ciphertext := C.b64encode (C.encrypt key₁ d₁.nonce d₁.secret) })
          :: w.store }, ?_, ?_⟩
        · simp only [store_new_key_ffi, ffiCatchStore, storeBody, c_str_to_string,
            encrypt_pk_and_prepare_file_data, derive_encryption_key, hkey₁, hstore,
            hwrite, hlook]
          simp
        · simp only [store_new_key_ffi, ffiCatchStore, storeBody, c_str_to_string,
            encrypt_pk_and_prepare_file_data, derive_encryption_key, hkey₁, hkey₂,
            hstore, hwrite, hlook]
          simp [List.lookup]

set_option maxRecDepth 1000000 in
/-- Witness for C2: storing under a fresh identifier in an empty store
returns 0, and repeating the call returns -16 with the state unchanged. -/
theorem c2_store_idempotent_rejection_witness :
    ∃ w₁, store_new_key_ffi toyPrims wEmpty dDraw (CInput.str ("alice")) (CInput.str ("pw"))
        = (0, w₁) ∧
      store_new_key_ffi toyPrims w₁ dDraw (CInput.str ("alice")) (CInput.str ("pw"))
        = (-16, w₁) :=
  c2_store_idempotent_rejection.2 toyPrims toyCryptoLaws wEmpty dDraw dDraw ("alice") ("pw")
    (by decide) (by decide) (by decide) (by decide) (by decide)

/-- Claim C3: for a 32-byte secret, any password, a 16-byte salt and a
12-byte nonce (the shapes the program draws), decrypting the stored
record produced by `encrypt_pk_and_prepare_file_data` with the same
password via `load_and_decrypt_pk` yields exactly the secret. -/
theorem c3_encrypt_decrypt_roundtrip :
    ∀ (C : CryptoPrims), CryptoLaws C →
    ∀ (S : List Byte) (pw : String) (salt nonce : List Byte) (kf : EncryptedKeyFile)
      (w : World) (idf : String),
      S.length = 32 → salt.length = 16 → nonce.length = 12 →
      encrypt_pk_and_prepare_file_data C salt nonce S pw = some kf →
      w.storageOk = true →
      w.store.lookup (idf ++ (".json")) = some (C.jsonSerialize kf) →
      load_and_decrypt_pk C w idf pw = LoadResult.ok S := by
  intro C hC S pw salt nonce kf w idf hS hsalt hnonce henc hst hlook
  cases hkey : C.argon2Hash 65536 4 2 32 pw salt with
  | none =>
    unfold encrypt_pk_and_prepare_file_data derive_encryption_key at henc
    rw [hkey] at henc
    simp at henc
  | some key =>
    unfold encrypt_pk_and_prepare_file_data derive_encryption_key at henc
    rw [hkey] at henc
    simp at henc
    subst henc
    simp [load_and_decrypt_pk, hst, hlook, hC.json_roundtrip, hC.b64_roundtrip,
      derive_encryption_key, hkey, hC.decrypt_encrypt, hnonce, hS]

set_option maxRecDepth 1000000 in
/-- Witness for C3: the concrete record produced for `secret32` loads
and decrypts back to `secret32`. -/
theorem c3_encrypt_decrypt_roundtrip_witness :
    load_and_decrypt_pk toyPrims wOk ("k") ("pw") = LoadResult.ok secret32 :=
  c3_encrypt_decrypt_roundtrip toyPrims toyCryptoLaws secret32 ("pw") salt16 nonce12
    goodRecord wOk ("k") (by decide) (by decide) (by decide) (by decide) (by decide)
    (by decide)

/-- A value accepted by the 256-bit hex parser is below `2 ^ 256`. -/
theorem u256_from_str_lt (s : String) (v : Nat)
    (h : u256_from_str_radix_16 s = some v) : v < 2 ^ 256 := by
  unfold u256_from_str_radix_16 at h
  split at h
  · simp at h
  · rw [Option.bind_eq_some] at h
    obtain ⟨a, _, h₂⟩ := h
    split at h₂ <;> simp_all

/-- An address accepted by `Address::from_str` is exactly 20 bytes. -/
theorem address_from_str_length (s : String) (bs : List Byte)
    (h : address_from_str s = some bs) : bs.length = 20 := by
  unfold address_from_str at h
  rw [Option.bind_eq_some] at h
  obtain ⟨a, _, h₂⟩ := h
  split at h₂ <;> simp_all

/-- Counterexample to C4: the claim says every numeric field of the
transaction — including `nonce`, `gasLimit`, `chainId` — is received as
hex-encoded text and decoded before use.  Under that reading the textual
nonce `10` denotes sixteen, but the code receives the nonce as a
`c_ulonglong` machine integer and uses the value ten directly: the
spec-described assembler and the code assembler disagree at this input. -/
theorem c4_hex_fields_counterexample :
    ((assembleTxSpecView ("0x0000000000000000000000000000000000000000") ("0") ("")
        ("10") ("1") ("5208") ("1")).map (fun p => p.1.nonce) = some 16) ∧
    ((assembleTx (CInput.str ("0x0000000000000000000000000000000000000000"))
        (CInput.str ("0")) (CInput.str ("")) (CInput.str ("1")) 10 21000).map Tx.nonce
        = some 10) ∧
    (16 : Nat) ≠ 10 := by decide

/-- Claim C4 as amended: the `to`, `value`, `data` and `gasPrice` fields
are received as hex text and are decoded and range-checked before use
(the address must decode to exactly 20 bytes, numeric fields must be
valid hex integers below `2 ^ 256`), while `nonce`, `gasLimit` (and
`chainId`) are received as unsigned 64-bit machine integers and used
directly without textual decoding. -/
theorem c4_field_decoding_amended :
    ∀ (toS vS dS gS : String) (n g : Nat) (tx : Tx),
      assembleTx (CInput.str toS) (CInput.str vS) (CInput.str dS) (CInput.str gS) n g
        = some tx →
      address_from_str (strip0x toS) = some tx.toAddr ∧ tx.toAddr.length = 20 ∧
      u256_from_str_radix_16 (strip0x vS) = some tx.value ∧ tx.value < 2 ^ 256 ∧
      hex_decode (strip0x dS) = some tx.data ∧
      u256_from_str_radix_16 (strip0x gS) = some tx.gasPrice ∧
      tx.nonce = n ∧ tx.gas = g := by
  intro toS vS dS gS n g tx h
  simp only [assembleTx, c_str_to_string] at h
  cases hto : address_from_str (strip0x toS) with
  | none => rw [hto] at h; simp at h
  | some toA =>
    rw [hto] at h
    cases hv : u256_from_str_radix_16 (strip0x vS) with
    | none => rw [hv] at h; simp at h
    | some v =>
      rw [hv] at h
      cases hd : hex_decode (strip0x dS) with
      | none => rw [hd] at h; simp at h
      | some d =>
        rw [hd] at h
        cases hg : u256_from_str_radix_16 (strip0x gS) with
        | none => rw [hg] at h; simp at h
        | some gp =>
          rw [hg] at h
          simp at h
          subst h
          exact ⟨rfl, address_from_str_length _ _ hto, rfl, u256_from_str_lt _ _ hv,
            rfl, rfl, rfl, rfl⟩

set_option maxRecDepth 1000000 in
/-- Witness for the amended C4 at a concrete well-formed call. -/
theorem c4_field_decoding_amended_witness :
    address_from_str (strip0x ("0x0000000000000000000000000000000000000000"))
        = some (List.replicate 20 0) ∧
      u256_from_str_radix_16 (strip0x ("0")) = some 0 ∧
      (0 : Nat) < 2 ^ 256 ∧
      hex_decode (strip0x ("")) = some [] ∧
      u256_from_str_radix_16 (strip0x ("1")) = some 1 ∧
      (7 : Nat) = 7 ∧ (21000 : Nat) = 21000 := by
  have h := c4_field_decoding_amended ("0x0000000000000000000000000000000000000000")
    ("0") ("") ("1") 7 21000
    { toAddr := List.replicate 20 0, value := 0, data := [], nonce := 7,
      gasPrice := 1, gas := 21000 } (by decide)
  exact ⟨h.1, h.2.2.1, h.2.2.2.1, h.2.2.2.2.1, h.2.2.2.2.2.1, rfl, rfl⟩

set_option maxRecDepth 1000000 in
/-- Counterexample to C5: a call whose `valueHex` is the non-hex string
`xyz` but whose master password is not configured returns -1 (the
password lookup and key load precede field validation), not -4 as the
claim states for every such call. -/
theorem c5_input_validation_counterexample :
    sign_evm_transaction_ffi toyPrims wEmpty { aOk with valueHex := CInput.str ("xyz") } []
        = (-1, []) ∧ (-1 : Int) ≠ -4 :=
  ⟨by decide, by decide⟩

/-- Claim C5 as amended: once a call reaches field validation (the
password is configured, the record loads and decrypts, and the key is a
valid scalar), a `to` that does not decode to exactly 20 bytes yields
-4 (the `to` field is validated before `value`), and a non-hex
`valueHex` yields -4 when `to` is valid. -/
theorem c5_input_validation_amended :
    ∀ (C : CryptoPrims) (w : World) (a : SignArgs) (buf : List Nat)
      (idf pw : String) (pk : List Byte) (toS : String),
      c_str_to_string a.keyId = Except.ok idf →
      w.envPassword = some pw →
      load_and_decrypt_pk C w idf pw = LoadResult.ok pk →
      C.validScalar pk = true →
      c_str_to_string a.toField = Except.ok toS →
      ((address_from_str (strip0x toS) = none →
          sign_evm_transaction_ffi C w a buf = (-4, buf)) ∧
        (∀ (addr : List Byte) (vS : String),
          address_from_str (strip0x toS) = some addr →
          c_str_to_string a.valueHex = Except.ok vS →
          u256_from_str_radix_16 (strip0x vS) = none →
          sign_evm_transaction_ffi C w a buf = (-4, buf))) := by
  intro C w a buf idf pw pk toS hid henv hload hval hto
  constructor
  · intro haddr
    rw [sign_ffi_eq]
    simp only [signStages, hid, henv, hload, hval, assembleTx, hto, haddr]
    simp
  · intro addr vS haddr hvs hvparse
    rw [sign_ffi_eq]
    simp only [signStages, hid, henv, hload, hval, assembleTx, hto, haddr, hvs, hvparse]
    simp

set_option maxRecDepth 1000000 in
/-- Witness for the amended C5: against the loadable stored record, a
wrong-length `to` returns -4, and a non-hex `valueHex` returns -4. -/
theorem c5_input_validation_amended_witness :
    sign_evm_transaction_ffi toyPrims wOk { aOk with toField := CInput.str ("1234") } []
        = (-4, []) ∧
      sign_evm_transaction_ffi toyPrims wOk { aOk with valueHex := CInput.str ("xyz") } []
        = (-4, []) :=
  ⟨(c5_input_validation_amended toyPrims wOk { aOk with toField := CInput.str ("1234") } []
      ("k") ("pw") secret32 ("1234") rfl rfl (by decide) rfl
      rfl).1 (by decide),
    (c5_input_validation_amended toyPrims wOk { aOk with valueHex := CInput.str ("xyz") } []
      ("k") ("pw") secret32 ("0x0000000000000000000000000000000000000000") rfl
      rfl (by decide) rfl rfl).2 (List.replicate 20 0) ("xyz")
      (by decide) rfl (by decide)⟩

/-- Claim C6: if authenticated decryption succeeds but the plaintext is
not exactly 32 bytes, `load_and_decrypt_pk` fails with the dedicated
message, and a `sign_evm_transaction_ffi` call whose load step fails
returns -1 rather than using the bytes. -/
theorem c6_decrypted_length_checked :
    (∀ (C : CryptoPrims) (w : World) (idf pw content : String)
        (kf : EncryptedKeyFile) (salt nonce ct key pt : List Byte),
      w.storageOk = true →
      w.store.lookup (idf ++ (".json")) = some content →
      C.jsonDeserialize content = some kf →
      C.b64decode kf.salt = some salt →
      C.b64decode kf.nonce = some nonce →
      C.b64decode kf.ciphertext = some ct →
      derive_encryption_key C pw salt = some key →
      nonce.length = 12 →
      C.decrypt key nonce ct = some pt →
      pt.length ≠ 32 →
      load_and_decrypt_pk C w idf pw
        = LoadResult.failed ("Decrypted private key is not 32 bytes long")) ∧
    (∀ (C : CryptoPrims) (w : World) (a : SignArgs) (buf : List Nat)
        (idf pw msg : String),
      c_str_to_string a.keyId = Except.ok idf →
      w.envPassword = some pw →
      load_and_decrypt_pk C w idf pw = LoadResult.failed msg →
      sign_evm_transaction_ffi C w a buf = (-1, buf)) := by
  constructor
  · intro C w idf pw content kf salt nonce ct key pt hst hlook hjson hsalt hnonce hct
      hkey h12 hdec hlen
    simp only [load_and_decrypt_pk, hst, hlook, hjson, hsalt, hnonce, hct, hkey, hdec,
      h12]
    simp [hlen]
  · intro C w a buf idf pw msg hid henv hload
    rw [sign_ffi_eq]
    simp only [signStages, hid, henv, hload]

set_option maxRecDepth 1000000 in
/-- Witness for C6: the stored 47-byte ciphertext decrypts to 31 bytes,
so loading fails with the length message and signing returns -1. -/
theorem c6_decrypted_length_checked_witness :
    load_and_decrypt_pk toyPrims wShortPk ("k") ("pw")
        = LoadResult.failed ("Decrypted private key is not 32 bytes long") ∧
      sign_evm_transaction_ffi toyPrims wShortPk aOk [] = (-1, []) :=
  ⟨c6_decrypted_length_checked.1 toyPrims wShortPk ("k") ("pw")
      (toyPrims.jsonSerialize shortRecord) shortRecord salt16 nonce12
      (List.replicate 47 0) (List.replicate 32 0) (List.replicate 31 0)
      rfl (by decide) (by decide) (by decide) (by decide) (by decide) (by decide)
      (by decide) (by decide) (by decide),
    c6_decrypted_length_checked.2 toyPrims wShortPk aOk [] ("k") ("pw")
      ("Decrypted private key is not 32 bytes long") rfl rfl (by decide)⟩

/-- Claim C7: both entry points route the whole body of the call through
the `catch_unwind` boundary (`ffiCatchSign` / `ffiCatchStore`), and that
boundary converts a panicking body into the status -5 with the caller's
buffer and the persisted state untouched — a panic never propagates
(the boundary is a total function into a status).  In the model a panic
is reachable: `Nonce::from_slice` panics on a record whose nonce is not
12 bytes. -/
theorem c7_panic_contained :
    (∀ (C : CryptoPrims) (w : World) (a : SignArgs) (buf : List Nat),
      signBody C w a buf = FfiOut.panicked →
      sign_evm_transaction_ffi C w a buf = (-5, buf)) ∧
    (∀ (buf : List Nat),
      ffiCatchSign FfiOut.panicked buf = (-5, buf)) ∧
    (∀ (w : World), ffiCatchStore FfiOut.panicked w = (-5, w)) ∧
    (∀ (C : CryptoPrims) (w : World) (a : SignArgs) (buf : List Nat),
      sign_evm_transaction_ffi C w a buf = ffiCatchSign (signBody C w a buf) buf) ∧
    (∀ (C : CryptoPrims) (w : World) (d : Draws) (i p : CInput),
      store_new_key_ffi C w d i p = ffiCatchStore (storeBody C w d i p) w) := by
  refine ⟨?_, fun _ => rfl, fun _ => rfl, fun _ _ _ _ => rfl, fun _ _ _ _ _ => rfl⟩
  intro C w a buf h
  unfold sign_evm_transaction_ffi
  rw [h]
  rfl

set_option maxRecDepth 1000000 in
/-- Witness for C7: loading the record whose nonce field decodes to 5
bytes panics inside the body, and the call returns -5. -/
theorem c7_panic_contained_witness :
    sign_evm_transaction_ffi toyPrims wBadNonce aOk [] = (-5, []) :=
  c7_panic_contained.1 toyPrims wBadNonce aOk [] (by decide)

/-- Claim C8: key derivation is deterministic — two runs of
`derive_encryption_key` on equal passwords and equal salts produce equal
results; the embedding reads nothing but its arguments and the fixed
Argon2id cost constants (65536 KiB, 4 iterations, parallelism 2,
32-byte output), which the second conjunct pins down. -/
theorem c8_derive_deterministic :
    ∀ (C : CryptoPrims) (p₁ p₂ : String) (s₁ s₂ : List Byte),
      p₁ = p₂ → s₁ = s₂ →
      derive_encryption_key C p₁ s₁ = derive_encryption_key C p₂ s₂ ∧
      derive_encryption_key C p₁ s₁ = C.argon2Hash 65536 4 2 32 p₁ s₁ := by
  intro C p₁ p₂ s₁ s₂ hp hs
  subst hp
  subst hs
  exact ⟨rfl, rfl⟩

/-- Witness for C8 at a concrete password and salt. -/
theorem c8_derive_deterministic_witness :
    derive_encryption_key toyPrims ("pw") salt16
        = derive_encryption_key toyPrims ("pw") salt16 ∧
      derive_encryption_key toyPrims ("pw") salt16
        = toyPrims.argon2Hash 65536 4 2 32 ("pw") salt16 :=
  c8_derive_deterministic toyPrims ("pw") ("pw") salt16 salt16 rfl rfl

/-- Claim C9: every call that returns a nonnegative status has written
the signed hex string — which carries the `0x` prefix — into the buffer
with a NUL terminator immediately after it, the status equals the
string's length, and string plus terminator fit within the declared
capacity (`c_uint`, hence the `2 ^ 32` bound). -/
theorem c9_success_contract :
    ∀ (C : CryptoPrims) (w : World) (a : SignArgs) (buf : List Nat),
      a.capacity < 2 ^ 32 →
      0 ≤ (sign_evm_transaction_ffi C w a buf).1 →
      ∃ hex body,
        hex = ("0x") ++ body ∧
        (sign_evm_transaction_ffi C w a buf).1 = (hex.length : Int) ∧
        (sign_evm_transaction_ffi C w a buf).2
          = stringBytes hex ++ 0 :: List.drop (hex.length + 1) buf ∧
        hex.length + 1 ≤ a.capacity := by
  intro C w a buf hcap32 hpos
  rw [sign_ffi_eq] at hpos ⊢
  cases hst : signStages C w a with
  | err code =>
    rw [hst] at hpos
    have hneg := signStages_err_neg C w a code hst
    simp at hpos
    omega
  | panicked =>
    rw [hst] at hpos
    simp at hpos
  | out hex =>
    rw [hst] at hpos
    obtain ⟨body, hbody⟩ := signStages_out_shape C w a hex hst
    by_cases hc : hex.length + 1 > a.capacity
    · simp [hc] at hpos
    · by_cases hnul : hasNul hex
      · simp [hc, hnul] at hpos
      · have hpos₂ : (0 : Int) ≤ wrapI32 hex.length := by
          simpa [hc, hnul] using hpos
        have hlt : hex.length < 2 ^ 32 := by omega
        have hwrap : wrapI32 hex.length = (hex.length : Int) := by
          unfold wrapI32 at hpos₂ ⊢
          rw [Nat.mod_eq_of_lt hlt] at hpos₂ ⊢
          by_cases h31 : hex.length < 2 ^ 31
          · rw [if_pos h31]
          · rw [if_neg h31] at hpos₂ ⊢
            exfalso
            omega
        refine ⟨hex, body, hbody, ?_, ?_, by omega⟩
        · simp [hc, hnul, hwrap]
        · simp [hc, hnul, writeCOut]

set_option maxRecDepth 1000000 in
/-- Witness for C9: the concrete happy-path call returns status 8 and
the buffer holds the 8-character string `0x010203` and its terminator. -/
theorem c9_success_contract_witness :
    (0 : Int) ≤ (sign_evm_transaction_ffi toyPrims wOk aOk []).1 ∧
      ∃ hex body, hex = ("0x") ++ body ∧
        (sign_evm_transaction_ffi toyPrims wOk aOk []).1 = (hex.length : Int) ∧
        (sign_evm_transaction_ffi toyPrims wOk aOk []).2
          = stringBytes hex ++ 0 :: List.drop (hex.length + 1) [] ∧
        hex.length + 1 ≤ aOk.capacity :=
  ⟨by decide, c9_success_contract toyPrims wOk aOk [] (by decide) (by decide)⟩

set_option maxRecDepth 1000000 in
/-- Counterexample to C10: with a null `to` pointer but no master
password configured, `sign_evm_transaction_ffi` returns -1 (the password
lookup precedes the `to` conversion), not -4 as the claim states; the
pointer is still never dereferenced. -/
theorem c10_null_pointer_counterexample :
    sign_evm_transaction_ffi toyPrims wEmpty { aOk with toField := CInput.null } []
        = (-1, []) ∧ (-1 : Int) ≠ -4 :=
  ⟨by decide, by decide⟩

/-- Claim C10 as amended: a null C-string pointer is caught by
`c_str_to_string` and never dereferenced.  A null `key_identifier` makes
SignTransaction return -4 at once; StoreNewKey returns -11 for a null
identifier (whatever the password argument) and -12 for a null password
after a valid identifier; the remaining SignTransaction string fields
(`to`, `valueHex`, `dataHex`, `gasPriceHex`) each produce -4 when the
call has passed the stages checked before them (password lookup, key
load/decrypt, signing-key validity, and the preceding fields), while an
earlier failing stage reports its own code first. -/
theorem c10_null_pointer_amended :
    (∀ (C : CryptoPrims) (w : World) (a : SignArgs) (buf : List Nat),
      a.keyId = CInput.null → sign_evm_transaction_ffi C w a buf = (-4, buf)) ∧
    (∀ (C : CryptoPrims) (w : World) (d : Draws) (p : CInput),
      store_new_key_ffi C w d CInput.null p = (-11, w)) ∧
    (∀ (C : CryptoPrims) (w : World) (d : Draws) (idf : String),
      store_new_key_ffi C w d (CInput.str idf) CInput.null = (-12, w)) ∧
    (∀ (C : CryptoPrims) (w : World) (a : SignArgs) (buf : List Nat)
        (idf pw : String) (pk : List Byte),
      c_str_to_string a.keyId = Except.ok idf →
      w.envPassword = some pw →
      load_and_decrypt_pk C w idf pw = LoadResult.ok pk →
      C.validScalar pk = true →
      (a.toField = CInput.null → sign_evm_transaction_ffi C w a buf = (-4, buf)) ∧
      (∀ (toS : String) (addr : List Byte),
        c_str_to_string a.toField = Except.ok toS →
        address_from_str (strip0x toS) = some addr →
        a.valueHex = CInput.null → sign_evm_transaction_ffi C w a buf = (-4, buf)) ∧
      (∀ (toS : String) (addr : List Byte) (vS : String) (v : Nat),
        c_str_to_string a.toField = Except.ok toS →
        address_from_str (strip0x toS) = some addr →
        c_str_to_string a.valueHex = Except.ok vS →
        u256_from_str_radix_16 (strip0x vS) = some v →
        a.dataHex = CInput.null → sign_evm_transaction_ffi C w a buf = (-4, buf)) ∧
      (∀ (toS : String) (addr : List Byte) (vS : String) (v : Nat)
          (dS : String) (db : List Byte),
        c_str_to_string a.toField = Except.ok toS →
        address_from_str (strip0x toS) = some addr →
        c_str_to_string a.valueHex = Except.ok vS →
        u256_from_str_radix_16 (strip0x vS) = some v →
        c_str_to_string a.dataHex = Except.ok dS →
        hex_decode (strip0x dS) = some db →
        a.gasPriceHex = CInput.null →
        sign_evm_transaction_ffi C w a buf = (-4, buf))) := by
  refine ⟨?_, fun _ _ _ _ => rfl, fun _ _ _ _ => rfl, ?_⟩
  · intro C w a buf hnull
    rw [sign_ffi_eq]
    simp only [signStages]
    simp [hnull, c_str_to_string]
  · intro C w a buf idf pw pk hid henv hload hval
    refine ⟨?_, ?_, ?_, ?_⟩
    · intro hnull
      rw [sign_ffi_eq]
      simp only [signStages, assembleTx, hid, henv, hload, hval]
      simp [hnull, c_str_to_string]
    · intro toS addr hto haddr hnull
      rw [sign_ffi_eq]
      simp only [signStages, assembleTx, hid, henv, hload, hval, hto, haddr]
      simp [hnull, c_str_to_string]
    · intro toS addr vS v hto haddr hvs hv hnull
      rw [sign_ffi_eq]
      simp only [signStages, assembleTx, hid, henv, hload, hval, hto, haddr, hvs, hv]
      simp [hnull, c_str_to_string]
    · intro toS addr vS v dS db hto haddr hvs hv hds hdb hnull
      rw [sign_ffi_eq]
      simp only [signStages, assembleTx, hid, henv, hload, hval, hto, haddr, hvs, hv,
        hds, hdb]
      simp [hnull, c_str_to_string]

set_option maxRecDepth 1000000 in
/-- Witness for the amended C10: a null `to` after a loadable key gives
-4, a null store identifier gives -11, a null store password -12. -/
theorem c10_null_pointer_amended_witness :
    sign_evm_transaction_ffi toyPrims wOk { aOk with toField := CInput.null } []
        = (-4, []) ∧
      store_new_key_ffi toyPrims wEmpty dDraw CInput.null (CInput.str ("pw"))
        = (-11, wEmpty) ∧
      store_new_key_ffi toyPrims wEmpty dDraw (CInput.str ("alice")) CInput.null
        = (-12, wEmpty) :=
  ⟨(c10_null_pointer_amended.2.2.2 toyPrims wOk { aOk with toField := CInput.null } []
      ("k") ("pw") secret32 rfl rfl (by decide) rfl).1 rfl,
    c10_null_pointer_amended.2.1 toyPrims wEmpty dDraw (CInput.str ("pw")),
    c10_null_pointer_amended.2.2.1 toyPrims wEmpty dDraw ("alice")⟩

end RustSigner
